import Mathlib

/-!
Verification of the BMSview maintenance scripts.

The repository holds three Python scripts that patch a single text file
(`components/HistoricalChart.tsx`) by literal substring search and
replacement.  We embed each script as a pure function from the file
contents it reads to the run outcome (exit code, whether the file was
written, the resulting file contents, and the status messages printed).

Documents are `List Char`; the line-based script works on `List (List Char)`
(the result of a Python-style `readlines`).  Python `str.replace` is
embedded as `replaceAll`, substring containment (`in`) as `isSubstrOf`.
All definitions are structurally recursive (fuel-based where needed) so
that they evaluate inside the kernel.
-/

/-- Python substring containment `p in s` on character lists. -/
def isSubstrOf (p : List Char) : List Char → Bool
  | [] => p.isPrefixOf []
  | c :: rest => if p.isPrefixOf (c :: rest) then true else isSubstrOf p rest

/-- Number of starting positions at which `p` occurs in `s`. -/
def countOccs (p : List Char) : List Char → Nat
  | [] => 0
  | c :: rest => (if p.isPrefixOf (c :: rest) then 1 else 0) + countOccs p rest

/-- Fuelled worker for `replaceAll`; fuel bounds the number of characters
consumed, so with `fuel = s.length` the fallthrough case is unreachable. -/
def replaceAllAux (old new : List Char) : Nat → List Char → List Char
  | _, [] => []
  | 0, s => s
  | fuel + 1, c :: rest =>
    if old.isPrefixOf (c :: rest) then
      new ++ replaceAllAux old new fuel (rest.drop (old.length - 1))
    else
      c :: replaceAllAux old new fuel rest

/-- Python `s.replace(old, new)`: replace every (leftmost, non-overlapping)
occurrence of `old` in `s` by `new`. -/
def replaceAll (old new s : List Char) : List Char :=
  replaceAllAux old new s.length s

/-- Worker for Python-style `readlines`: split after every newline,
keeping the newline at the end of each line. -/
def pyReadlinesAux (cur : List Char) : List Char → List (List Char)
  | [] => if cur.isEmpty then [] else [cur.reverse]
  | c :: rest =>
    if c = '\n' then (cur.reverse ++ ['\n']) :: pyReadlinesAux [] rest
    else pyReadlinesAux (c :: cur) rest

/-- Python `f.readlines()` on in-memory contents. -/
def pyReadlines (s : List Char) : List (List Char) :=
  pyReadlinesAux [] s

/-- Number of occurrences of the character `g` in a list. -/
def charCount (g : Char) : List Char → Nat
  | [] => 0
  | c :: rest => (if c = g then 1 else 0) + charCount g rest

/-- `cleanPrefix p a b = true` when no occurrence of `p` in `a ++ b` starts
at a position inside `a` (occurrences may span into `b`). -/
def cleanPrefix (p : List Char) : List Char → List Char → Bool
  | [], _ => true
  | c :: a, b => if p.isPrefixOf (c :: (a ++ b)) then false else cleanPrefix p a b

/-- The status lines the scripts print. -/
inductive Msg where
  | foundReplacedSection
  | sectionNotFound
  | foundDivExactFailed
  | couldNotFindDiv
  | foundReplacedClosing
  | closingNotFound
  | fileUpdated
  | couldNotFindTargetLine
  | foundTargetAtLine (n : Nat)
  | unexpectedStructure
  | updatedClosingAtLine (n : Nat)
  | chartControlsUpdated
  | fixedFragmentPlacement
deriving DecidableEq

/-- Outcome of one script run on a whole-string document: the exit code,
whether the script reached its write, the file contents on disk after the
run, and the messages printed. -/
structure RunResult where
  exitCode : Nat
  wrote : Bool
  file : List Char
  msgs : List Msg
deriving DecidableEq

/-- Outcome of a run of the line-based script. -/
structure RunResultL where
  exitCode : Nat
  wrote : Bool
  file : List (List Char)
  msgs : List Msg
deriving DecidableEq

def old_section : List Char := String.data "               <div className=\"flex justify-end items-center gap-4 mt-4\">\n                    \x7bhasChartData && <button onClick=\x7bonResetView\x7d className=\"text-sm text-secondary hover:underline\">Reset View</button>\x7d\n                    \x7bchartView === \x27timeline\x27 && (\n                       <div className=\"relative\" ref=\x7bmetricConfigRef\x7d>"

def ns_a : List Char := String.data "               <div className=\"flex justify-end items-center gap-4 mt-4\">\n                    \x7bhasChartData && <button onClick=\x7bonResetView\x7d className=\"text-sm text-secondary hover:underline\">Reset View</button>\x7d\n                    \x7bchartView === \x27timeline\x27 && (\n                       <>\n                           \x7b/* Data Averaging Controls */\x7d\n                           <div className=\"flex items-center gap-3 border-r border-gray-600 pr-4\">\n                               <label className=\"flex items-center space-x-2 text-sm text-gray-300 cursor-pointer\">\n                                   <input \n                                       type=\"checkbox\" \n                                       checked=\x7baveragingEnabled\x7d \n                                       onChange=\x7b(e) => \x7b\n                                           setAveragingEnabled(e.target.checked);\n                                           if (!e.target.checked) setManualBucketSize(null);\n                                       \x7d\x7d\n                                       className=\"form-checkbox h-4 w-4 bg-gray-700 border-gray-600 text-secondary focus:ring-secondary\"\n                                   />\n                                   <span>Data Averaging</span>\n                               </label>\n"

def ns_b : List Char := String.data "                               \x7baveragingEnabled && (\n                                   <select \n                                       value=\x7bmanualBucketSize || \x27auto\x27\x7d \n                                       onChange=\x7b(e) => setManualBucketSize(e.target.value === \x27auto\x27 ? null : e.target.value)\x7d\n                                       className=\"bg-gray-700 border border-gray-600 rounded-md px-2 py-1 text-sm text-white focus:ring-secondary focus:border-secondary\"\n                                   >\n                                       <option value=\"auto\">Auto (Zoom-based)</option>\n                                       <option value=\"raw\">No Averaging</option>\n                                       <option value=\"5\">5 Minutes</option>\n                                       <option value=\"15\">15 Minutes</option>\n                                       <option value=\"60\">1 Hour</option>\n                                       <option value=\"240\">4 Hours</option>\n                                       <option value=\"1440\">1 Day</option>\n                                   </select>\n                               )\x7d\n                           </div>\n                           <div className=\"relative\" ref=\x7bmetricConfigRef\x7d>"

def new_section : List Char := ns_a ++ ns_b

def old_close : List Char := String.data "                       </div>\n                    )\x7d\n                    <button onClick=\x7bonGenerate\x7d"

def new_close : List Char := String.data "                           </div>\n                       </>\n                    )\x7d\n                    <button onClick=\x7bonGenerate\x7d"

def divProbe : List Char := String.data "className=\"flex justify-end items-center gap-4 mt-4\""

def tlMarker : List Char := String.data "chartView === \x27timeline\x27 &&"

def divMarker : List Char := String.data "<div className=\"relative\""

def parenRepl : List Char := String.data "(\n                       <>"

def openParen : List Char := String.data "("

def divCloseM : List Char := String.data "</div>"

def parenCloseM : List Char := String.data ")\x7d\n"

def chartViewM : List Char := String.data "chartView"

def fragCloseLine : List Char := String.data "                       </>\n"

def fragToken : List Char := String.data "</>"

def newTail : List (List Char) := [
  String.data "                           \x7b/* Data Averaging Controls */\x7d\n",
  String.data "                           <div className=\"flex items-center gap-3 border-r border-gray-600 pr-4\">\n",
  String.data "                               <label className=\"flex items-center space-x-2 text-sm text-gray-300 cursor-pointer\">\n",
  String.data "                                   <input \n",
  String.data "                                       type=\"checkbox\" \n",
  String.data "                                       checked=\x7baveragingEnabled\x7d \n",
  String.data "                                       onChange=\x7b(e) => \x7b\n",
  String.data "                                           setAveragingEnabled(e.target.checked);\n",
  String.data "                                           if (!e.target.checked) setManualBucketSize(null);\n",
  String.data "                                       \x7d\x7d\n",
  String.data "                                       className=\"form-checkbox h-4 w-4 bg-gray-700 border-gray-600 text-secondary focus:ring-secondary\"\n",
  String.data "                                   />\n",
  String.data "                                   <span>Data Averaging</span>\n",
  String.data "                               </label>\n",
  String.data "                               \x7baveragingEnabled && (\n",
  String.data "                                   <select \n",
  String.data "                                       value=\x7bmanualBucketSize || \x27auto\x27\x7d \n",
  String.data "                                       onChange=\x7b(e) => setManualBucketSize(e.target.value === \x27auto\x27 ? null : e.target.value)\x7d\n",
  String.data "                                       className=\"bg-gray-700 border border-gray-600 rounded-md px-2 py-1 text-sm text-white focus:ring-secondary focus:border-secondary\"\n",
  String.data "                                   >\n",
  String.data "                                       <option value=\"auto\">Auto (Zoom-based)</option>\n",
  String.data "                                       <option value=\"raw\">No Averaging</option>\n",
  String.data "                                       <option value=\"5\">5 Minutes</option>\n",
  String.data "                                       <option value=\"15\">15 Minutes</option>\n",
  String.data "                                       <option value=\"60\">1 Hour</option>\n",
  String.data "                                       <option value=\"240\">4 Hours</option>\n",
  String.data "                                       <option value=\"1440\">1 Day</option>\n",
  String.data "                                   </select>\n",
  String.data "                               )\x7d\n",
  String.data "                           </div>\n"
]

def finalOld1 : List Char := String.data "                                                           </div>\n                          </>\n                                                       )\x7d"

def finalNew1 : List Char := String.data "                                                           </div>\n                                                       )\x7d"

def finalOld2 : List Char := String.data "                               </div>\n                           )\x7d\n                       </div>\n                    )\x7d\n                    <button onClick=\x7bonGenerate\x7d"

def finalNew2 : List Char := String.data "                               </div>\n                           )\x7d\n                       </div>\n                       </>\n                    )\x7d\n                    <button onClick=\x7bonGenerate\x7d"

/-- `update_chart_controls.py`: guarded whole-string replacement of the
controls section and of its closing, aborting with exit 1 before the write
when either literal block is absent. -/
def update_chart_controls (content : List Char) : RunResult :=
  if isSubstrOf old_section content then
    let c1 := replaceAll old_section new_section content
    if isSubstrOf old_close c1 then
      { exitCode := 0, wrote := true,
        file := replaceAll old_close new_close c1,
        msgs := [Msg.foundReplacedSection, Msg.foundReplacedClosing, Msg.fileUpdated] }
    else
      { exitCode := 1, wrote := false, file := content,
        msgs := [Msg.foundReplacedSection, Msg.closingNotFound] }
  else
    { exitCode := 1, wrote := false, file := content,
      msgs := Msg.sectionNotFound ::
        (if isSubstrOf divProbe content then [Msg.foundDivExactFailed] else [Msg.couldNotFindDiv]) }

/-- The target scan of `fix_chart_controls.py`: first line index `i` whose
line contains the marker and with `i > 200`; `n` is the index of the head
of the remaining list. -/
def findTarget (m : List Char) : Nat → List (List Char) → Option Nat
  | _, [] => none
  | n, l :: rest =>
    if isSubstrOf m l ∧ 200 < n then some n else findTarget m (n + 1) rest

/-- The in-memory insertion of `fix_chart_controls.py`: line `t` has every
`(` replaced by `(` + newline + fragment opener, and the thirty payload
lines follow it. -/
def insertControls (lines : List (List Char)) (t : Nat) : List (List Char) :=
  lines.take t ++ (replaceAll openParen parenRepl (lines.getD t []) :: newTail) ++ lines.drop (t + 1)

/-- Fuelled worker for the closing-fixup scan of `fix_chart_controls.py`.
`none` models an uncaught IndexError (the `lines[i + 2]` access);
`some none` models the loop falling through without a match;
`some (some i)` a match at index `i`. -/
def fixupLoopAux (lines : List (List Char)) (hi : Nat) : Nat → Nat → Option (Option Nat)
  | 0, _ => some none
  | fuel + 1, i =>
    if i < hi then
      if isSubstrOf divCloseM (lines.getD i []) then
        if i + 1 < lines.length then
          if isSubstrOf parenCloseM (lines.getD (i + 1) []) then
            match lines.get? (i + 2) with
            | none => none
            | some l2 =>
              if isSubstrOf chartViewM l2 then fixupLoopAux lines hi fuel (i + 1)
              else some (some i)
          else fixupLoopAux lines hi fuel (i + 1)
        else fixupLoopAux lines hi fuel (i + 1)
      else fixupLoopAux lines hi fuel (i + 1)
    else some none

/-- The closing-fixup scan: `for i in range(i0, hi)` with the loop body of
`fix_chart_controls.py` lines 71-76. -/
def fixupLoop (lines : List (List Char)) (hi i : Nat) : Option (Option Nat) :=
  fixupLoopAux lines hi (hi - i) i

/-- `fix_chart_controls.py` on the list of lines read from the file.
`none` models a run killed by an uncaught IndexError (no write happens). -/
def fix_chart_controls_lines (lines : List (List Char)) : Option RunResultL :=
  match findTarget tlMarker 0 lines with
  | none => some { exitCode := 1, wrote := false, file := lines,
                   msgs := [Msg.couldNotFindTargetLine] }
  | some t =>
    match lines.get? (t + 1) with
    | none => none
    | some nxt =>
      if isSubstrOf divMarker nxt then
        let lines1 := insertControls lines t
        match fixupLoop lines1 (min (t + 100) (lines1.length - 1)) (t + 50) with
        | none => none
        | some none =>
          some { exitCode := 0, wrote := true, file := lines1,
                 msgs := [Msg.foundTargetAtLine (t + 1), Msg.chartControlsUpdated] }
        | some (some i) =>
          some { exitCode := 0, wrote := true,
                 file := lines1.set (i + 1) (fragCloseLine ++ lines1.getD (i + 1) []),
                 msgs := [Msg.foundTargetAtLine (t + 1), Msg.updatedClosingAtLine (i + 2),
                          Msg.chartControlsUpdated] }
      else
        some { exitCode := 1, wrote := false, file := lines,
               msgs := [Msg.foundTargetAtLine (t + 1), Msg.unexpectedStructure] }

/-- `fix_chart_controls.py` as a function of the raw file contents. -/
def fix_chart_controls (content : List Char) : Option RunResult :=
  match fix_chart_controls_lines (pyReadlines content) with
  | none => none
  | some r => some { exitCode := r.exitCode, wrote := r.wrote,
                     file := r.file.flatten, msgs := r.msgs }

/-- `fix_chart_final.py`: two unconditional replacements, one write,
one success message, exit 0 on every input. -/
def fix_chart_final (content : List Char) : RunResult :=
  { exitCode := 0, wrote := true,
    file := replaceAll finalOld2 finalNew2 (replaceAll finalOld1 finalNew1 content),
    msgs := [Msg.fixedFragmentPlacement] }

/-- The three scripts run in sequence on the same file; a run that aborts
or crashes before its write leaves the contents unchanged. -/
def pipeline (c : List Char) : List Char :=
  let c1 := (update_chart_controls c).file
  let c2 := match fix_chart_controls c1 with
            | none => c1
            | some r => r.file
  (fix_chart_final c2).file

/-! Concrete documents used as test inputs for the claims. -/

def hdrFix : List Char := String.data "// chart header\n"

def sepFix : List Char := String.data "\n"

def tlrFix : List Char := String.data ">Generate</button>\n"

/-- A small plausible before-state of the edited file: the original
controls section, its closing, and a generate button. -/
def beforeFix : List Char := hdrFix ++ old_section ++ sepFix ++ old_close ++ tlrFix

/-- The fixture after a successful run of the first script. -/
def afterFix : List Char := hdrFix ++ new_section ++ sepFix ++ new_close ++ tlrFix

/-- Opening fragment token directly after the timeline conditional. -/
def openFragAfterCond : List Char := String.data "\x27timeline\x27 && (\n                       <>"

/-- Closing fragment token directly before the closing of the conditional. -/
def closeFragBeforeParen : List Char := String.data "</>\n                    )\x7d"

/-- End of the averaging-controls block followed by the original div. -/
def avgThenDiv : List Char := String.data "                           </div>\n                           <div className=\"relative\" ref=\x7bmetricConfigRef\x7d>"

def helloDoc : List Char := String.data "hello\n"

def fillerLine : List Char := String.data "x\n"

def tlLine : List Char := String.data "                    \x7bchartView === \x27timeline\x27 && (\n"

def divLine : List Char := String.data "                       <div className=\"relative\" ref=\x7bmetricConfigRef\x7d>\n"

def divCloseLine : List Char := String.data "                       </div>\n"

def parenCloseLine : List Char := String.data "                    )\x7d\n"

def chartViewLine : List Char := String.data "            chartView here\n"

/-- Target on the last line: the structure check reads past the end. -/
def docC9a : List (List Char) := List.replicate 201 fillerLine ++ [tlLine]

/-- Candidate fixup match at the very end: the loop reads two lines past
the candidate and falls off the end. -/
def docC9b : List (List Char) :=
  List.replicate 201 fillerLine ++ [tlLine, divLine] ++ List.replicate 18 fillerLine ++
    [divCloseLine, parenCloseLine]

/-- Insertion succeeds but the fixup window is empty. -/
def docC2 : List (List Char) := List.replicate 201 fillerLine ++ [tlLine, divLine]

/-- Marker both below the floor (line 0) and above it (line 201). -/
def docC5 : List (List Char) := tlLine :: (List.replicate 200 fillerLine ++ [tlLine])

/-- Marker present only below the floor. -/
def docC5n : List (List Char) := [fillerLine, tlLine]

/-- A fixup candidate inside the window, two lines before the end. -/
def docC6 : List (List Char) :=
  List.replicate 201 fillerLine ++ [tlLine, divLine] ++ List.replicate 18 fillerLine ++
    [divCloseLine, parenCloseLine, fillerLine]

/-- Two fixup candidates in the window; the first one is rejected only
because the line after it mentions chartView. -/
def docC6cex : List (List Char) :=
  List.replicate 201 fillerLine ++ [tlLine, divLine] ++ List.replicate 18 fillerLine ++
    [divCloseLine, parenCloseLine, chartViewLine, divCloseLine, parenCloseLine, fillerLine]

/-! Helper lemmas about the text operations. -/

theorem replaceAllAux_congr (old new : List Char) :
    ∀ f₁ f₂ s, s.length ≤ f₁ → s.length ≤ f₂ →
      replaceAllAux old new f₁ s = replaceAllAux old new f₂ s := by
  intro f₁
  induction f₁ with
  | zero =>
    intro f₂ s h₁ _
    have hs : s = [] := List.eq_nil_of_length_eq_zero (Nat.le_zero.mp h₁)
    subst hs
    cases f₂ <;> rfl
  | succ f ih =>
    intro f₂ s h₁ h₂
    cases s with
    | nil => cases f₂ <;> rfl
    | cons c rest =>
      cases f₂ with
      | zero => simp at h₂
      | succ g =>
        simp only [List.length_cons] at h₁ h₂
        simp only [replaceAllAux]
        by_cases hp : old.isPrefixOf (c :: rest) = true
        · simp only [if_pos hp]
          refine congrArg (new ++ ·) (ih _ _ ?_ ?_) <;>
            simp only [List.length_drop] <;> omega
        · simp only [if_neg hp]
          refine congrArg (c :: ·) (ih _ _ ?_ ?_) <;> omega

theorem replaceAll_cons (old new : List Char) (c : Char) (rest : List Char) :
    replaceAll old new (c :: rest) =
      if old.isPrefixOf (c :: rest) then
        new ++ replaceAll old new (rest.drop (old.length - 1))
      else c :: replaceAll old new rest := by
  unfold replaceAll
  simp only [List.length_cons, replaceAllAux]
  by_cases hp : old.isPrefixOf (c :: rest) = true
  · simp only [if_pos hp]
    refine congrArg (new ++ ·) (replaceAllAux_congr _ _ _ _ _ ?_ le_rfl)
    simp only [List.length_drop]
    omega
  · simp only [if_neg hp]

theorem isPrefixOf_append_self (l t : List Char) : l.isPrefixOf (l ++ t) = true := by
  rw [List.isPrefixOf_iff_prefix]
  exact ⟨t, rfl⟩

theorem replaceAll_head (old new q : List Char) (h : old ≠ []) :
    replaceAll old new (old ++ q) = new ++ replaceAll old new q := by
  cases old with
  | nil => exact absurd rfl h
  | cons o os =>
    rw [List.cons_append, replaceAll_cons]
    have hp : (o :: os).isPrefixOf (o :: (os ++ q)) = true := by
      rw [← List.cons_append]
      exact isPrefixOf_append_self _ _
    rw [if_pos hp]
    congr 1
    simp only [List.length_cons, Nat.add_sub_cancel]
    rw [List.drop_left]

theorem replaceAll_id_of_not_substr (old new : List Char) :
    ∀ s, isSubstrOf old s = false → replaceAll old new s = s := by
  intro s
  induction s with
  | nil => intro _; rfl
  | cons c rest ih =>
    intro h
    simp only [isSubstrOf] at h
    by_cases hp : old.isPrefixOf (c :: rest) = true
    · rw [if_pos hp] at h
      exact absurd h (by simp)
    · rw [if_neg hp] at h
      rw [replaceAll_cons, if_neg hp, ih h]

theorem replaceAll_clean (old new : List Char) :
    ∀ p t, cleanPrefix old p t = true →
      replaceAll old new (p ++ t) = p ++ replaceAll old new t := by
  intro p
  induction p with
  | nil => intro t _; rfl
  | cons c p ih =>
    intro t h
    simp only [cleanPrefix] at h
    by_cases hp : old.isPrefixOf (c :: (p ++ t)) = true
    · rw [if_pos hp] at h
      exact absurd h (by simp)
    · rw [if_neg hp] at h
      rw [List.cons_append, replaceAll_cons, if_neg hp, ih t h]
      simp

/-- Symbolic computation of one guarded replacement: if `old` does not
occur before the marked spot nor after it, the replacement rewrites
exactly the marked region. -/
theorem replaceAll_patch (old new p q : List Char) (h0 : old ≠ [])
    (hc : cleanPrefix old p (old ++ q) = true) (hq : isSubstrOf old q = false) :
    replaceAll old new (p ++ old ++ q) = p ++ new ++ q := by
  rw [List.append_assoc, replaceAll_clean old new p (old ++ q) hc,
      replaceAll_head old new q h0, replaceAll_id_of_not_substr old new q hq,
      ← List.append_assoc]

theorem isSubstrOf_iff (p : List Char) :
    ∀ s, isSubstrOf p s = true ↔ ∃ a b, s = a ++ p ++ b := by
  intro s
  induction s with
  | nil =>
    simp only [isSubstrOf]
    constructor
    · intro h
      rw [List.isPrefixOf_iff_prefix] at h
      obtain ⟨t, ht⟩ := h
      obtain ⟨hp, ht0⟩ := List.append_eq_nil.mp ht
      exact ⟨[], [], by simp [hp]⟩
    · rintro ⟨a, b, hab⟩
      rw [List.isPrefixOf_iff_prefix]
      have := List.append_eq_nil.mp (List.append_eq_nil.mp hab.symm).1
      exact ⟨[], by simp [this.2]⟩
  | cons c rest ih =>
    simp only [isSubstrOf]
    by_cases hp : p.isPrefixOf (c :: rest) = true
    · rw [if_pos hp]
      simp only [true_iff]
      rw [List.isPrefixOf_iff_prefix] at hp
      obtain ⟨t, ht⟩ := hp
      exact ⟨[], t, by simp [← ht]⟩
    · rw [if_neg hp, ih]
      constructor
      · rintro ⟨a, b, hab⟩
        exact ⟨c :: a, b, by simp [hab]⟩
      · rintro ⟨a, b, hab⟩
        cases a with
        | nil =>
          exfalso
          apply hp
          rw [List.isPrefixOf_iff_prefix]
          exact ⟨b, by simpa using hab.symm⟩
        | cons a0 a1 =>
          refine ⟨a1, b, ?_⟩
          have := hab
          simp only [List.cons_append, List.cons.injEq] at this
          exact this.2

theorem isSubstrOf_append_mid (p a b : List Char) : isSubstrOf p (a ++ p ++ b) = true :=
  (isSubstrOf_iff p _).mpr ⟨a, b, rfl⟩

theorem isSubstrOf_mono (p s a b : List Char) (h : isSubstrOf p s = true) :
    isSubstrOf p (a ++ s ++ b) = true := by
  obtain ⟨u, v, huv⟩ := (isSubstrOf_iff p s).mp h
  refine (isSubstrOf_iff p _).mpr ⟨a ++ u, v ++ b, ?_⟩
  subst huv
  simp

theorem isSubstrOf_append_false (p : List Char) :
    ∀ a b, cleanPrefix p a b = true → isSubstrOf p b = false →
      isSubstrOf p (a ++ b) = false := by
  intro a
  induction a with
  | nil => intro b _ hb; simpa using hb
  | cons c a ih =>
    intro b h hb
    simp only [cleanPrefix] at h
    by_cases hp : p.isPrefixOf (c :: (a ++ b)) = true
    · rw [if_pos hp] at h
      exact absurd h (by simp)
    · rw [if_neg hp] at h
      rw [List.cons_append]
      simp only [isSubstrOf]
      rw [if_neg hp]
      exact ih b h hb

theorem cleanPrefix_append (p : List Char) :
    ∀ a b t, cleanPrefix p a (b ++ t) = true → cleanPrefix p b t = true →
      cleanPrefix p (a ++ b) t = true := by
  intro a
  induction a with
  | nil => intro b t _ hb; simpa using hb
  | cons c a ih =>
    intro b t ha hb
    simp only [cleanPrefix, List.append_eq, List.append_assoc] at ha ⊢
    by_cases hp : p.isPrefixOf (c :: (a ++ (b ++ t))) = true
    · rw [if_pos hp] at ha
      exact absurd ha (by simp)
    · rw [if_neg hp] at ha
      rw [if_neg hp]
      exact ih b t ha hb

theorem flatten_pyReadlinesAux :
    ∀ s cur, (pyReadlinesAux cur s).flatten = cur.reverse ++ s := by
  intro s
  induction s with
  | nil =>
    intro cur
    simp only [pyReadlinesAux]
    by_cases h : cur.isEmpty = true
    · rw [if_pos h]
      simp [List.isEmpty_iff.mp h]
    · rw [if_neg h]
      simp
  | cons c rest ih =>
    intro cur
    simp only [pyReadlinesAux]
    by_cases h : c = '\n'
    · rw [if_pos h]
      simp [ih, h]
    · rw [if_neg h]
      rw [ih]
      simp

theorem flatten_pyReadlines (s : List Char) : (pyReadlines s).flatten = s := by
  simpa using flatten_pyReadlinesAux s []

theorem charCount_append (g : Char) (a b : List Char) :
    charCount g (a ++ b) = charCount g a + charCount g b := by
  induction a with
  | nil => simp [charCount]
  | cons c rest ih =>
    simp only [List.cons_append, List.append_eq, charCount, ih]
    omega

theorem pyReadlinesAux_length :
    ∀ s cur, (pyReadlinesAux cur s).length ≤ charCount '\n' s + 1 := by
  intro s
  induction s with
  | nil =>
    intro cur
    simp only [pyReadlinesAux]
    split <;> simp [charCount]
  | cons c rest ih =>
    intro cur
    simp only [pyReadlinesAux, charCount]
    by_cases h : c = '\n'
    · rw [if_pos h, if_pos h]
      simp only [List.length_cons]
      have := ih []
      omega
    · rw [if_neg h, if_neg h]
      have := ih (c :: cur)
      omega

theorem pyReadlines_length (s : List Char) :
    (pyReadlines s).length ≤ charCount '\n' s + 1 :=
  pyReadlinesAux_length s []

theorem findTarget_none_of_short (m : List Char) :
    ∀ ls n, n + ls.length ≤ 201 → findTarget m n ls = none := by
  intro ls
  induction ls with
  | nil => intro n _; rfl
  | cons l rest ih =>
    intro n h
    simp only [List.length_cons] at h
    simp only [findTarget]
    rw [if_neg ?_]
    · exact ih (n + 1) (by omega)
    · rintro ⟨-, hn⟩
      omega

theorem findTarget_some (m : List Char) :
    ∀ ls n i, findTarget m n ls = some i →
      n ≤ i ∧ i - n < ls.length ∧
      (isSubstrOf m (ls.getD (i - n) []) = true ∧ 200 < i) ∧
      (∀ j, n ≤ j → j < i → ¬(isSubstrOf m (ls.getD (j - n) []) = true ∧ 200 < j)) := by
  intro ls
  induction ls with
  | nil => intro n i h; exact absurd h (by simp [findTarget])
  | cons l rest ih =>
    intro n i h
    simp only [findTarget] at h
    by_cases hc : isSubstrOf m l = true ∧ 200 < n
    · rw [if_pos hc] at h
      have hni : n = i := Option.some.inj h
      subst hni
      refine ⟨le_rfl, by simp, by simpa using hc, ?_⟩
      intro j hj1 hj2
      omega
    · rw [if_neg hc] at h
      obtain ⟨h1, h2, h3, h4⟩ := ih (n + 1) i h
      refine ⟨by omega, by simp; omega, ?_, ?_⟩
      · have e : i - n = (i - (n + 1)) + 1 := by omega
        rw [e, List.getD_cons_succ]
        exact h3
      · intro j hj1 hj2
        by_cases hjn : j = n
        · subst hjn
          simpa using hc
        · have e : j - n = (j - (n + 1)) + 1 := by omega
          rw [e, List.getD_cons_succ]
          exact h4 j (by omega) hj2

theorem findTarget_none (m : List Char) :
    ∀ ls n, (∀ k, k < ls.length → ¬(isSubstrOf m (ls.getD k []) = true ∧ 200 < n + k)) →
      findTarget m n ls = none := by
  intro ls
  induction ls with
  | nil => intro n _; rfl
  | cons l rest ih =>
    intro n h
    simp only [findTarget]
    rw [if_neg ?_]
    · refine ih (n + 1) ?_
      intro k hk
      have hh := h (k + 1) (by simp; omega)
      have e : n + (k + 1) = (n + 1) + k := by omega
      rw [e] at hh
      simpa using hh
    · have hh := h 0 (by simp)
      simpa using hh

theorem fixupLoopAux_some (lines : List (List Char)) (hi : Nat) :
    ∀ fuel i j, fixupLoopAux lines hi fuel i = some (some j) →
      i ≤ j ∧ j < hi ∧
      (isSubstrOf divCloseM (lines.getD j []) = true ∧
       j + 1 < lines.length ∧
       isSubstrOf parenCloseM (lines.getD (j + 1) []) = true ∧
       ∃ l2, lines.get? (j + 2) = some l2 ∧ isSubstrOf chartViewM l2 = false) ∧
      ∀ k, i ≤ k → k < j →
        ¬(isSubstrOf divCloseM (lines.getD k []) = true ∧
          k + 1 < lines.length ∧
          isSubstrOf parenCloseM (lines.getD (k + 1) []) = true ∧
          ∀ l2, lines.get? (k + 2) = some l2 → isSubstrOf chartViewM l2 = false) := by
  intro fuel
  induction fuel with
  | zero => intro i j h; exact absurd h (by simp [fixupLoopAux])
  | succ f ih =>
    intro i j h
    simp only [fixupLoopAux] at h
    by_cases hlt : i < hi
    · rw [if_pos hlt] at h
      by_cases h1 : isSubstrOf divCloseM (lines.getD i []) = true
      · rw [if_pos h1] at h
        by_cases h2 : i + 1 < lines.length
        · rw [if_pos h2] at h
          by_cases h3 : isSubstrOf parenCloseM (lines.getD (i + 1) []) = true
          · rw [if_pos h3] at h
            split at h
            next => exact absurd h (by simp)
            next l2 hget =>
              by_cases h4 : isSubstrOf chartViewM l2 = true
              · rw [if_pos h4] at h
                obtain ⟨g1, g2, g3, g4⟩ := ih (i + 1) j h
                refine ⟨by omega, g2, g3, ?_⟩
                intro k hk1 hk2
                by_cases hki : k = i
                · subst hki
                  rintro ⟨-, -, -, hall⟩
                  exact absurd (hall l2 hget) (by simpa using h4)
                · exact g4 k (by omega) hk2
              · rw [if_neg h4] at h
                have hij : i = j := by
                  have := Option.some.inj h
                  exact Option.some.inj this
                subst hij
                refine ⟨le_rfl, hlt, ⟨h1, h2, h3, l2, hget, by simpa using h4⟩, ?_⟩
                intro k hk1 hk2
                omega
          · rw [if_neg h3] at h
            obtain ⟨g1, g2, g3, g4⟩ := ih (i + 1) j h
            refine ⟨by omega, g2, g3, ?_⟩
            intro k hk1 hk2
            by_cases hki : k = i
            · subst hki
              rintro ⟨-, -, hc, -⟩
              exact h3 hc
            · exact g4 k (by omega) hk2
        · rw [if_neg h2] at h
          obtain ⟨g1, g2, g3, g4⟩ := ih (i + 1) j h
          refine ⟨by omega, g2, g3, ?_⟩
          intro k hk1 hk2
          by_cases hki : k = i
          · subst hki
            rintro ⟨-, hc, -⟩
            exact h2 hc
          · exact g4 k (by omega) hk2
      · rw [if_neg h1] at h
        obtain ⟨g1, g2, g3, g4⟩ := ih (i + 1) j h
        refine ⟨by omega, g2, g3, ?_⟩
        intro k hk1 hk2
        by_cases hki : k = i
        · subst hki
          rintro ⟨hc, -⟩
          exact h1 hc
        · exact g4 k (by omega) hk2
    · rw [if_neg hlt] at h
      exact absurd h (by simp)

theorem fixupLoop_some (lines : List (List Char)) (hi i j : Nat)
    (h : fixupLoop lines hi i = some (some j)) :
    i ≤ j ∧ j < hi ∧
    (isSubstrOf divCloseM (lines.getD j []) = true ∧
     j + 1 < lines.length ∧
     isSubstrOf parenCloseM (lines.getD (j + 1) []) = true ∧
     ∃ l2, lines.get? (j + 2) = some l2 ∧ isSubstrOf chartViewM l2 = false) ∧
    ∀ k, i ≤ k → k < j →
      ¬(isSubstrOf divCloseM (lines.getD k []) = true ∧
        k + 1 < lines.length ∧
        isSubstrOf parenCloseM (lines.getD (k + 1) []) = true ∧
        ∀ l2, lines.get? (k + 2) = some l2 → isSubstrOf chartViewM l2 = false) :=
  fixupLoopAux_some lines hi (hi - i) i j h

theorem countOccs_zero_replaceAll (old new : List Char) :
    ∀ s, countOccs old s = 0 → replaceAll old new s = s := by
  intro s
  induction s with
  | nil => intro _; rfl
  | cons c rest ih =>
    intro h
    simp only [countOccs] at h
    by_cases hp : old.isPrefixOf (c :: rest) = true
    · rw [if_pos hp] at h
      omega
    · rw [if_neg hp] at h
      rw [replaceAll_cons, if_neg hp, ih (by omega)]

theorem countOccs_drop_le (old : List Char) :
    ∀ s n, countOccs old (s.drop n) ≤ countOccs old s := by
  intro s
  induction s with
  | nil => intro n; simp
  | cons c rest ih =>
    intro n
    cases n with
    | zero => exact le_rfl
    | succ n =>
      rw [List.drop_succ_cons]
      calc countOccs old (rest.drop n) ≤ countOccs old rest := ih n
        _ ≤ countOccs old (c :: rest) := by
            simp only [countOccs]
            omega

theorem countOccs_append_le (old : List Char) :
    ∀ a b, countOccs old b ≤ countOccs old (a ++ b) := by
  intro a b
  induction a with
  | nil => simp
  | cons c rest ih =>
    rw [List.cons_append]
    calc countOccs old b ≤ countOccs old (rest ++ b) := ih
      _ ≤ countOccs old (c :: (rest ++ b)) := by
          simp only [countOccs]
          omega

theorem countOccs_of_mid (old : List Char) (h : old ≠ []) :
    ∀ a b, 1 ≤ countOccs old (a ++ old ++ b) := by
  intro a b
  induction a with
  | nil =>
    cases old with
    | nil => exact absurd rfl h
    | cons o os =>
      simp only [List.nil_append, List.cons_append, List.append_eq, countOccs]
      rw [if_pos (show (o :: os).isPrefixOf (o :: (os ++ b)) = true from
        isPrefixOf_append_self (o :: os) b)]
      omega
  | cons c rest ih =>
    rw [List.cons_append]
    calc 1 ≤ countOccs old (rest ++ old ++ b) := ih
      _ ≤ countOccs old (c :: (rest ++ old ++ b)) := by
          simp only [countOccs]
          omega

/-- A document with a single occurrence of `old` splits as
prefix-occurrence-suffix, and `replaceAll` rewrites exactly that
occurrence. -/
theorem replaceAll_unique (old new : List Char) (h0 : old ≠ []) :
    ∀ s, countOccs old s = 1 →
      ∃ p q, s = p ++ old ++ q ∧ replaceAll old new s = p ++ new ++ q := by
  intro s
  induction s with
  | nil => intro h; simp [countOccs] at h
  | cons c rest ih =>
    intro h
    simp only [countOccs] at h
    by_cases hp : old.isPrefixOf (c :: rest) = true
    · rw [if_pos hp] at h
      have hr : countOccs old rest = 0 := by omega
      obtain ⟨t, ht⟩ := List.isPrefixOf_iff_prefix.mp hp
      have hdrop : rest.drop (old.length - 1) = t := by
        cases old with
        | nil => exact absurd rfl h0
        | cons o os =>
          rw [List.cons_append] at ht
          injection ht with h1 h2
          simp only [List.length_cons, Nat.add_sub_cancel]
          rw [← h2, List.drop_left]
      have hq0 : countOccs old t = 0 := by
        have := countOccs_drop_le old rest (old.length - 1)
        rw [hdrop] at this
        omega
      refine ⟨[], t, by simp [← ht], ?_⟩
      rw [replaceAll_cons, if_pos hp, hdrop, countOccs_zero_replaceAll old new t hq0]
      simp
    · rw [if_neg hp] at h
      obtain ⟨p, q, hs, hrw⟩ := ih (by omega)
      refine ⟨c :: p, q, by simp [hs], ?_⟩
      rw [replaceAll_cons, if_neg hp, hrw]
      simp

/-- Tail-recursive character count (used to evaluate counts on long
literals without deep non-tail recursion). -/
def charCountTR (g : Char) (acc : Nat) : List Char → Nat
  | [] => acc
  | c :: rest => if c = g then charCountTR g (acc + 1) rest else charCountTR g acc rest

theorem charCountTR_eq (g : Char) :
    ∀ s acc, charCountTR g acc s = acc + charCount g s := by
  intro s
  induction s with
  | nil => intro acc; simp [charCountTR, charCount]
  | cons c rest ih =>
    intro acc
    simp only [charCountTR, charCount]
    by_cases h : c = g
    · rw [if_pos h, if_pos h, ih]
      omega
    · rw [if_neg h, if_neg h, ih]
      omega

theorem isSubstrOf_self (p : List Char) : isSubstrOf p p = true :=
  (isSubstrOf_iff p p).mpr ⟨[], [], by simp⟩

theorem isSubstrOf_append_left (p a b : List Char) (h : isSubstrOf p b = true) :
    isSubstrOf p (a ++ b) = true := by
  obtain ⟨u, v, huv⟩ := (isSubstrOf_iff p b).mp h
  refine (isSubstrOf_iff p _).mpr ⟨a ++ u, v, ?_⟩
  subst huv
  simp

theorem isSubstrOf_append_right (p a b : List Char) (h : isSubstrOf p a = true) :
    isSubstrOf p (a ++ b) = true := by
  obtain ⟨u, v, huv⟩ := (isSubstrOf_iff p a).mp h
  refine (isSubstrOf_iff p _).mpr ⟨u, v ++ b, ?_⟩
  subst huv
  simp


set_option maxRecDepth 40000

theorem isSubstrOf_nil_false (p : List Char) (h : p ≠ []) : isSubstrOf p [] = false := by
  cases p with
  | nil => exact absurd rfl h
  | cons c rest => rfl

theorem isSubstrOf_false_of_clean_nil (p s : List Char) (hc : cleanPrefix p s [] = true)
    (h : p ≠ []) : isSubstrOf p s = false := by
  have := isSubstrOf_append_false p s [] hc (isSubstrOf_nil_false p h)
  simpa using this

/-! Concrete facts about the literal blocks, established by evaluation. -/

theorem old_section_ne : old_section ≠ [] := by decide

theorem old_close_ne : old_close ≠ [] := by decide

theorem clean_os_hdr :
    cleanPrefix old_section hdrFix (old_section ++ (sepFix ++ old_close ++ tlrFix)) = true := by
  decide

theorem nosub_os_rest : isSubstrOf old_section (sepFix ++ old_close ++ tlrFix) = false := by
  decide

theorem clean_oc_hdr :
    cleanPrefix old_close hdrFix (new_section ++ (sepFix ++ (old_close ++ tlrFix))) = true := by
  decide

theorem clean_oc_nsa :
    cleanPrefix old_close ns_a (ns_b ++ (sepFix ++ (old_close ++ tlrFix))) = true := by
  decide

theorem clean_oc_nsb :
    cleanPrefix old_close ns_b (sepFix ++ (old_close ++ tlrFix)) = true := by
  decide

theorem clean_oc_sep : cleanPrefix old_close sepFix (old_close ++ tlrFix) = true := by decide

theorem nosub_oc_tlr : isSubstrOf old_close tlrFix = false := by decide

/-- The first replacement of `update_chart_controls.py` on the fixture. -/
theorem c1_eq : replaceAll old_section new_section beforeFix =
    hdrFix ++ new_section ++ sepFix ++ old_close ++ tlrFix := by
  have e : beforeFix = hdrFix ++ old_section ++ (sepFix ++ old_close ++ tlrFix) := by
    simp [beforeFix, List.append_assoc]
  rw [e, replaceAll_patch old_section new_section hdrFix _ old_section_ne clean_os_hdr
    nosub_os_rest]
  simp [List.append_assoc]

theorem clean_oc_mid :
    cleanPrefix old_close (hdrFix ++ new_section ++ sepFix) (old_close ++ tlrFix) = true := by
  refine cleanPrefix_append old_close (hdrFix ++ new_section) sepFix (old_close ++ tlrFix)
    ?_ clean_oc_sep
  refine cleanPrefix_append old_close hdrFix new_section (sepFix ++ (old_close ++ tlrFix))
    clean_oc_hdr ?_
  rw [show new_section = ns_a ++ ns_b from rfl]
  exact cleanPrefix_append old_close ns_a ns_b (sepFix ++ (old_close ++ tlrFix))
    clean_oc_nsa clean_oc_nsb

/-- The second replacement of `update_chart_controls.py` on the fixture. -/
theorem c2_eq : replaceAll old_close new_close
    (hdrFix ++ new_section ++ sepFix ++ old_close ++ tlrFix) = afterFix := by
  exact replaceAll_patch old_close new_close (hdrFix ++ new_section ++ sepFix) tlrFix
    old_close_ne clean_oc_mid nosub_oc_tlr

theorem sub_os_beforeFix : isSubstrOf old_section beforeFix = true := by
  have e : beforeFix = hdrFix ++ old_section ++ (sepFix ++ old_close ++ tlrFix) := by
    simp [beforeFix, List.append_assoc]
  rw [e]
  exact isSubstrOf_append_mid old_section hdrFix (sepFix ++ old_close ++ tlrFix)

theorem sub_oc_c1 :
    isSubstrOf old_close (hdrFix ++ new_section ++ sepFix ++ old_close ++ tlrFix) = true :=
  isSubstrOf_append_mid old_close (hdrFix ++ new_section ++ sepFix) tlrFix

/-- `update_chart_controls.py` on the fixture: both guards pass and the
file is rewritten to `afterFix`. -/
theorem update_beforeFix : update_chart_controls beforeFix =
    { exitCode := 0, wrote := true, file := afterFix,
      msgs := [Msg.foundReplacedSection, Msg.foundReplacedClosing, Msg.fileUpdated] } := by
  unfold update_chart_controls
  rw [if_pos sub_os_beforeFix]
  simp only [c1_eq]
  rw [if_pos sub_oc_c1, c2_eq]

theorem cc_hdr : charCount '\n' hdrFix = 1 := by decide

theorem cc_nsa : charCount '\n' ns_a = 18 := by
  have h := charCountTR_eq '\n' ns_a 0
  rw [show charCountTR '\n' 0 ns_a = 18 from by decide] at h
  omega

theorem cc_nsb : charCount '\n' ns_b = 16 := by
  have h := charCountTR_eq '\n' ns_b 0
  rw [show charCountTR '\n' 0 ns_b = 16 from by decide] at h
  omega

theorem cc_sep : charCount '\n' sepFix = 1 := by decide

theorem cc_nc : charCount '\n' new_close = 3 := by decide

theorem cc_tlr : charCount '\n' tlrFix = 1 := by decide

theorem cc_afterFix : charCount '\n' afterFix = 40 := by
  have e : afterFix = hdrFix ++ new_section ++ sepFix ++ new_close ++ tlrFix := rfl
  rw [e, show new_section = ns_a ++ ns_b from rfl]
  simp only [charCount_append]
  rw [cc_hdr, cc_nsa, cc_nsb, cc_sep, cc_nc, cc_tlr]

theorem afterFix_short : (pyReadlines afterFix).length ≤ 201 := by
  have h := pyReadlines_length afterFix
  rw [cc_afterFix] at h
  omega

/-- `fix_chart_controls.py` on `afterFix`: the file has far fewer than 201
lines, so the target scan fails and the script exits 1 without writing. -/
theorem fixcc_afterFix : fix_chart_controls afterFix =
    some { exitCode := 1, wrote := false, file := afterFix,
           msgs := [Msg.couldNotFindTargetLine] } := by
  have hft : findTarget tlMarker 0 (pyReadlines afterFix) = none :=
    findTarget_none_of_short tlMarker (pyReadlines afterFix) 0 (by have := afterFix_short; omega)
  unfold fix_chart_controls fix_chart_controls_lines
  rw [hft]
  simp [flatten_pyReadlines]

theorem clean_f1_hdr :
    cleanPrefix finalOld1 hdrFix (new_section ++ (sepFix ++ (new_close ++ tlrFix))) = true := by
  decide

theorem clean_f1_nsa :
    cleanPrefix finalOld1 ns_a (ns_b ++ (sepFix ++ (new_close ++ tlrFix))) = true := by
  decide

theorem clean_f1_nsb :
    cleanPrefix finalOld1 ns_b (sepFix ++ (new_close ++ tlrFix)) = true := by
  decide

theorem clean_f1_sep : cleanPrefix finalOld1 sepFix (new_close ++ tlrFix) = true := by decide

theorem clean_f1_nc : cleanPrefix finalOld1 new_close tlrFix = true := by decide

theorem nosub_f1_tlr : isSubstrOf finalOld1 tlrFix = false := by decide

theorem clean_f2_hdr :
    cleanPrefix finalOld2 hdrFix (new_section ++ (sepFix ++ (new_close ++ tlrFix))) = true := by
  decide

theorem clean_f2_nsa :
    cleanPrefix finalOld2 ns_a (ns_b ++ (sepFix ++ (new_close ++ tlrFix))) = true := by
  decide

theorem clean_f2_nsb :
    cleanPrefix finalOld2 ns_b (sepFix ++ (new_close ++ tlrFix)) = true := by
  decide

theorem clean_f2_sep : cleanPrefix finalOld2 sepFix (new_close ++ tlrFix) = true := by decide

theorem clean_f2_nc : cleanPrefix finalOld2 new_close tlrFix = true := by decide

theorem nosub_f2_tlr : isSubstrOf finalOld2 tlrFix = false := by decide

theorem nosub_f1_afterFix : isSubstrOf finalOld1 afterFix = false := by
  have e : afterFix = (hdrFix ++ new_section ++ sepFix ++ new_close) ++ tlrFix := rfl
  rw [e]
  refine isSubstrOf_append_false finalOld1 _ _ ?_ nosub_f1_tlr
  refine cleanPrefix_append finalOld1 (hdrFix ++ new_section ++ sepFix) new_close tlrFix
    ?_ clean_f1_nc
  refine cleanPrefix_append finalOld1 (hdrFix ++ new_section) sepFix (new_close ++ tlrFix)
    ?_ clean_f1_sep
  refine cleanPrefix_append finalOld1 hdrFix new_section (sepFix ++ (new_close ++ tlrFix))
    clean_f1_hdr ?_
  rw [show new_section = ns_a ++ ns_b from rfl]
  exact cleanPrefix_append finalOld1 ns_a ns_b (sepFix ++ (new_close ++ tlrFix))
    clean_f1_nsa clean_f1_nsb

theorem nosub_f2_afterFix : isSubstrOf finalOld2 afterFix = false := by
  have e : afterFix = (hdrFix ++ new_section ++ sepFix ++ new_close) ++ tlrFix := rfl
  rw [e]
  refine isSubstrOf_append_false finalOld2 _ _ ?_ nosub_f2_tlr
  refine cleanPrefix_append finalOld2 (hdrFix ++ new_section ++ sepFix) new_close tlrFix
    ?_ clean_f2_nc
  refine cleanPrefix_append finalOld2 (hdrFix ++ new_section) sepFix (new_close ++ tlrFix)
    ?_ clean_f2_sep
  refine cleanPrefix_append finalOld2 hdrFix new_section (sepFix ++ (new_close ++ tlrFix))
    clean_f2_hdr ?_
  rw [show new_section = ns_a ++ ns_b from rfl]
  exact cleanPrefix_append finalOld2 ns_a ns_b (sepFix ++ (new_close ++ tlrFix))
    clean_f2_nsa clean_f2_nsb

/-- `fix_chart_final.py` on `afterFix`: neither block occurs, so the write
is byte-for-byte the input. -/
theorem final_afterFix : fix_chart_final afterFix =
    { exitCode := 0, wrote := true, file := afterFix,
      msgs := [Msg.fixedFragmentPlacement] } := by
  unfold fix_chart_final
  rw [replaceAll_id_of_not_substr finalOld1 finalNew1 afterFix nosub_f1_afterFix,
      replaceAll_id_of_not_substr finalOld2 finalNew2 afterFix nosub_f2_afterFix]

/-- The three-script pipeline maps the fixture to `afterFix`. -/
theorem pipeline_beforeFix : pipeline beforeFix = afterFix := by
  unfold pipeline
  rw [update_beforeFix]
  simp only [fixcc_afterFix, final_afterFix]

theorem f_open_nsa : isSubstrOf openFragAfterCond ns_a = true := by decide

theorem f_avg_nsb : isSubstrOf avgThenDiv ns_b = true := by decide

theorem f_close_nc : isSubstrOf closeFragBeforeParen new_close = true := by decide

theorem clean_oc_nsa_nsb : cleanPrefix old_close ns_a ns_b = true := by decide

theorem clean_oc_nsb_nil : cleanPrefix old_close ns_b [] = true := by decide

theorem nosub_oc_ns : isSubstrOf old_close new_section = false := by
  rw [show new_section = ns_a ++ ns_b from rfl]
  exact isSubstrOf_append_false old_close ns_a ns_b clean_oc_nsa_nsb
    (isSubstrOf_false_of_clean_nil old_close ns_b clean_oc_nsb_nil old_close_ne)

theorem replaceAll_os_self : replaceAll old_section new_section old_section = new_section := by
  have h := replaceAll_head old_section new_section [] old_section_ne
  rw [List.append_nil] at h
  rw [h]
  rw [show replaceAll old_section new_section [] = [] from rfl]
  rw [List.append_nil]

theorem sub_afterFix_of_ns (p : List Char) (h : isSubstrOf p new_section = true) :
    isSubstrOf p afterFix = true := by
  rw [show afterFix = hdrFix ++ new_section ++ sepFix ++ new_close ++ tlrFix from rfl]
  exact isSubstrOf_append_right _ _ _ (isSubstrOf_append_right _ _ _
    (isSubstrOf_append_right _ _ _ (isSubstrOf_append_left _ _ _ h)))

theorem sub_afterFix_of_nc (p : List Char) (h : isSubstrOf p new_close = true) :
    isSubstrOf p afterFix = true := by
  rw [show afterFix = hdrFix ++ new_section ++ sepFix ++ new_close ++ tlrFix from rfl]
  exact isSubstrOf_append_right _ _ _ (isSubstrOf_append_left _ _ _ h)

/-! The claims. -/

/-- C1 counterexample: the claim says all three scripts exit non-zero with
a diagnostic and leave the file untouched when a required pattern is
missing, but `fix_chart_final.py` checks nothing: on a document that
contains neither of its two blocks it still writes, prints only the
success message, and exits 0. -/
theorem claim1_cex :
    isSubstrOf finalOld1 helloDoc = false ∧ isSubstrOf finalOld2 helloDoc = false ∧
    (fix_chart_final helloDoc).exitCode = 0 ∧ (fix_chart_final helloDoc).wrote = true ∧
    (fix_chart_final helloDoc).msgs = [Msg.fixedFragmentPlacement] :=
  ⟨by decide, by decide, rfl, rfl, rfl⟩

/-- C1 (amended): the not-found policy holds for the patterns the scripts
actually guard: both patterns of update_chart_controls.py and the
target-line and structure checks of fix_chart_controls.py exit 1 with a
diagnostic message before any write; fix_chart_final.py performs no check
at all: every run writes and exits 0 with a success message, and when
neither of its blocks is present the bytes written equal the bytes read. -/
theorem claim1_amended :
    (∀ c, isSubstrOf old_section c = false →
      (update_chart_controls c).exitCode = 1 ∧ (update_chart_controls c).wrote = false ∧
      (update_chart_controls c).file = c ∧
      Msg.sectionNotFound ∈ (update_chart_controls c).msgs) ∧
    (∀ c, isSubstrOf old_section c = true →
      isSubstrOf old_close (replaceAll old_section new_section c) = false →
      (update_chart_controls c).exitCode = 1 ∧ (update_chart_controls c).wrote = false ∧
      (update_chart_controls c).file = c ∧
      Msg.closingNotFound ∈ (update_chart_controls c).msgs) ∧
    (∀ ls, findTarget tlMarker 0 ls = none →
      fix_chart_controls_lines ls =
        some { exitCode := 1, wrote := false, file := ls,
               msgs := [Msg.couldNotFindTargetLine] }) ∧
    (∀ ls t nxt, findTarget tlMarker 0 ls = some t → ls.get? (t + 1) = some nxt →
      isSubstrOf divMarker nxt = false →
      fix_chart_controls_lines ls =
        some { exitCode := 1, wrote := false, file := ls,
               msgs := [Msg.foundTargetAtLine (t + 1), Msg.unexpectedStructure] }) ∧
    (∀ c, (fix_chart_final c).exitCode = 0 ∧ (fix_chart_final c).wrote = true ∧
      (fix_chart_final c).msgs = [Msg.fixedFragmentPlacement]) ∧
    (∀ c, isSubstrOf finalOld1 c = false → isSubstrOf finalOld2 c = false →
      (fix_chart_final c).file = c) := by
  refine ⟨?_, ?_, ?_, ?_, ?_, ?_⟩
  · intro c h
    simp only [update_chart_controls]
    rw [if_neg (by simp [h])]
    exact ⟨rfl, rfl, rfl, List.mem_cons_self _ _⟩
  · intro c h1 h2
    simp only [update_chart_controls]
    rw [if_pos h1, if_neg (by simp [h2])]
    exact ⟨rfl, rfl, rfl, by simp⟩
  · intro ls h
    simp only [fix_chart_controls_lines, h]
  · intro ls t nxt h1 h2 h3
    simp only [fix_chart_controls_lines, h1, h2]
    rw [if_neg (by simp [h3])]
  · intro c
    exact ⟨rfl, rfl, rfl⟩
  · intro c h1 h2
    show replaceAll finalOld2 finalNew2 (replaceAll finalOld1 finalNew1 c) = c
    rw [replaceAll_id_of_not_substr _ _ _ h1, replaceAll_id_of_not_substr _ _ _ h2]

/-- C1 witness: the amended claim evaluated on a small concrete document
that contains none of the patterns. -/
theorem claim1_witness :
    ((update_chart_controls helloDoc).exitCode = 1 ∧
      (update_chart_controls helloDoc).file = helloDoc) ∧
    (fix_chart_final helloDoc).file = helloDoc :=
  ⟨⟨(claim1_amended.1 helloDoc (by decide)).1,
    (claim1_amended.1 helloDoc (by decide)).2.2.1⟩,
   claim1_amended.2.2.2.2.2 helloDoc (by decide) (by decide)⟩

/-- C2: when the insertion succeeds but the bounded fixup window has no
match, the script silently writes the inserted (unbalanced) document and
exits 0 with the plain success messages; neither the replacement of the
target line nor the payload lines carry a closing fragment token. -/
theorem claim2_thm (ls : List (List Char)) (t : Nat) (nxt : List Char)
    (h1 : findTarget tlMarker 0 ls = some t)
    (h2 : ls.get? (t + 1) = some nxt)
    (h3 : isSubstrOf divMarker nxt = true)
    (h4 : fixupLoop (insertControls ls t) (min (t + 100) ((insertControls ls t).length - 1))
      (t + 50) = some none) :
    fix_chart_controls_lines ls =
      some { exitCode := 0, wrote := true, file := insertControls ls t,
             msgs := [Msg.foundTargetAtLine (t + 1), Msg.chartControlsUpdated] } ∧
    (∀ l ∈ newTail, isSubstrOf fragToken l = false) ∧
    isSubstrOf fragToken parenRepl = false := by
  refine ⟨?_, by decide, by decide⟩
  simp only [fix_chart_controls_lines, h1, h2]
  rw [if_pos h3]
  simp only [h4]

/-- C2 witness: a concrete document whose fixup window is empty, so the
fixup is silently skipped and the inserted document is written. -/
theorem claim2_witness :
    fix_chart_controls_lines docC2 =
      some { exitCode := 0, wrote := true, file := insertControls docC2 201,
             msgs := [Msg.foundTargetAtLine 202, Msg.chartControlsUpdated] } :=
  (claim2_thm docC2 201 divLine (by decide) (by decide) (by decide) (by decide)).1

/-- C3: when the opening section is found and replaced in memory but the
closing pattern is then absent, update_chart_controls.py exits 1 before
the write, so the file content is unchanged. -/
theorem claim3_thm (c : List Char)
    (h1 : isSubstrOf old_section c = true)
    (h2 : isSubstrOf old_close (replaceAll old_section new_section c) = false) :
    update_chart_controls c =
      { exitCode := 1, wrote := false, file := c,
        msgs := [Msg.foundReplacedSection, Msg.closingNotFound] } := by
  simp only [update_chart_controls]
  rw [if_pos h1, if_neg (by simp [h2])]

/-- C3 witness: a document equal to the opening block itself contains it,
and after the in-memory replacement the closing pattern is absent. -/
theorem claim3_witness :
    update_chart_controls old_section =
      { exitCode := 1, wrote := false, file := old_section,
        msgs := [Msg.foundReplacedSection, Msg.closingNotFound] } :=
  claim3_thm old_section (isSubstrOf_self old_section)
    (by rw [replaceAll_os_self]; exact nosub_oc_ns)

/-- C4: on a document with exactly one occurrence of the marker block,
whole-string replace rewrites exactly the matched region: the document
splits as prefix, block, suffix, and the output is the same prefix, the
new block, and the same suffix. -/
theorem claim4_thm (old new s : List Char) (h0 : old ≠ []) (h1 : countOccs old s = 1) :
    ∃ p q, s = p ++ old ++ q ∧ replaceAll old new s = p ++ new ++ q :=
  replaceAll_unique old new h0 s h1

/-- C4 witness: a concrete single-occurrence replacement. -/
theorem claim4_witness :
    ∃ p q, String.data "zabz" = p ++ String.data "ab" ++ q ∧
      replaceAll (String.data "ab") (String.data "xy") (String.data "zabz") =
        p ++ String.data "xy" ++ q :=
  claim4_thm (String.data "ab") (String.data "xy") (String.data "zabz")
    (by decide) (by decide)

/-- C5: the line scan returns the first index whose line contains the
timeline marker and which exceeds the floor 200, skipping earlier
occurrences; and it returns none exactly when no line past the floor
contains the marker, in which case the script exits 1 unchanged. -/
theorem claim5_thm :
    (∀ ls i, findTarget tlMarker 0 ls = some i →
      isSubstrOf tlMarker (ls.getD i []) = true ∧ 200 < i ∧
      ∀ j, j < i → ¬(isSubstrOf tlMarker (ls.getD j []) = true ∧ 200 < j)) ∧
    (∀ ls, (∀ k, k < ls.length → ¬(isSubstrOf tlMarker (ls.getD k []) = true ∧ 200 < k)) →
      findTarget tlMarker 0 ls = none ∧
      fix_chart_controls_lines ls =
        some { exitCode := 1, wrote := false, file := ls,
               msgs := [Msg.couldNotFindTargetLine] }) := by
  constructor
  · intro ls i h
    obtain ⟨h1, h2, h3, h4⟩ := findTarget_some tlMarker ls 0 i h
    rw [Nat.sub_zero] at h3
    refine ⟨h3.1, h3.2, ?_⟩
    intro j hj
    have := h4 j (Nat.zero_le j) hj
    rwa [Nat.sub_zero] at this
  · intro ls h
    have hn : findTarget tlMarker 0 ls = none := by
      refine findTarget_none tlMarker ls 0 ?_
      intro k hk
      have := h k hk
      simpa using this
    refine ⟨hn, ?_⟩
    simp only [fix_chart_controls_lines, hn]

/-- C5 witness: a document with the marker both on line 0 and on line 201
is resolved to line 201 (the first line past the floor), and a short
document yields the not-found exit. -/
theorem claim5_witness :
    (isSubstrOf tlMarker (docC5.getD 0 []) = true ∧
     isSubstrOf tlMarker (docC5.getD 201 []) = true ∧ 200 < 201 ∧
     ∀ j, j < 201 → ¬(isSubstrOf tlMarker (docC5.getD j []) = true ∧ 200 < j)) ∧
    (findTarget tlMarker 0 docC5n = none ∧
     fix_chart_controls_lines docC5n =
       some { exitCode := 1, wrote := false, file := docC5n,
              msgs := [Msg.couldNotFindTargetLine] }) := by
  refine ⟨⟨by decide, ?_⟩, ?_⟩
  · have h := claim5_thm.1 docC5 201 (by decide)
    exact ⟨h.1, h.2.1, h.2.2⟩
  · exact claim5_thm.2 docC5n (by decide)

/-- C6 counterexample: the claim describes the fixup as acting on the
first window position where a closing-marker line is immediately followed
by a conditional-closing line, but the code also requires that the line
two past the candidate does not mention chartView. On this document the
first such pair (updated lines 251 and 252, inside the window) is skipped
because of that extra test, and the token is spliced at the second pair
instead: line 252 is left unchanged and line 255 receives the token. -/
theorem claim6_cex :
    isSubstrOf divCloseM ((insertControls docC6cex 201).getD 251 []) = true ∧
    isSubstrOf parenCloseM ((insertControls docC6cex 201).getD 252 []) = true ∧
    201 + 50 ≤ 251 ∧ 251 < min (201 + 100) ((insertControls docC6cex 201).length - 1) ∧
    fix_chart_controls_lines docC6cex =
      some { exitCode := 0, wrote := true,
             file := (insertControls docC6cex 201).set 255
               (fragCloseLine ++ (insertControls docC6cex 201).getD 255 []),
             msgs := [Msg.foundTargetAtLine 202, Msg.updatedClosingAtLine 256,
                      Msg.chartControlsUpdated] } ∧
    ((insertControls docC6cex 201).set 255
      (fragCloseLine ++ (insertControls docC6cex 201).getD 255 [])).getD 252 [] =
      parenCloseLine := by
  refine ⟨by decide, by decide, by decide, by decide, by decide, by decide⟩

/-- C6 (amended): the fixup scans the bounded window from the insertion
point for the first index whose line contains the closing marker, whose
next line contains the conditional-closing marker, and whose line two
further on exists and does not mention chartView; it splices the
fragment-closing token immediately before that conditional-closing line
(by prefixing it to that line), acting only on the first index of the
window that meets all three conditions. -/
theorem claim6_amended (ls : List (List Char)) (t i : Nat) (nxt : List Char)
    (h1 : findTarget tlMarker 0 ls = some t)
    (h2 : ls.get? (t + 1) = some nxt)
    (h3 : isSubstrOf divMarker nxt = true)
    (h4 : fixupLoop (insertControls ls t) (min (t + 100) ((insertControls ls t).length - 1))
      (t + 50) = some (some i)) :
    t + 50 ≤ i ∧ i < min (t + 100) ((insertControls ls t).length - 1) ∧
    isSubstrOf divCloseM ((insertControls ls t).getD i []) = true ∧
    isSubstrOf parenCloseM ((insertControls ls t).getD (i + 1) []) = true ∧
    (∃ l2, (insertControls ls t).get? (i + 2) = some l2 ∧
      isSubstrOf chartViewM l2 = false) ∧
    (∀ k, t + 50 ≤ k → k < i →
      ¬(isSubstrOf divCloseM ((insertControls ls t).getD k []) = true ∧
        k + 1 < (insertControls ls t).length ∧
        isSubstrOf parenCloseM ((insertControls ls t).getD (k + 1) []) = true ∧
        ∀ l2, (insertControls ls t).get? (k + 2) = some l2 →
          isSubstrOf chartViewM l2 = false)) ∧
    fix_chart_controls_lines ls =
      some { exitCode := 0, wrote := true,
             file := (insertControls ls t).set (i + 1)
               (fragCloseLine ++ (insertControls ls t).getD (i + 1) []),
             msgs := [Msg.foundTargetAtLine (t + 1), Msg.updatedClosingAtLine (i + 2),
                      Msg.chartControlsUpdated] } := by
  obtain ⟨g1, g2, g3, g4⟩ := fixupLoop_some _ _ _ _ h4
  refine ⟨g1, g2, g3.1, g3.2.2.1, g3.2.2.2, g4, ?_⟩
  simp only [fix_chart_controls_lines, h1, h2]
  rw [if_pos h3]
  simp only [h4]

/-- C6 witness: a concrete document whose window holds a single candidate
at updated line index 251; the token is spliced into line 252. -/
theorem claim6_witness :
    fix_chart_controls_lines docC6 =
      some { exitCode := 0, wrote := true,
             file := (insertControls docC6 201).set 252
               (fragCloseLine ++ (insertControls docC6 201).getD 252 []),
             msgs := [Msg.foundTargetAtLine 202, Msg.updatedClosingAtLine 253,
                      Msg.chartControlsUpdated] } :=
  (claim6_amended docC6 201 251 divLine (by decide) (by decide) (by decide)
    (by decide)).2.2.2.2.2.2

/-- C7: on the concrete fixture that contains the timeline conditional
followed by the relative div, the pipeline output contains the full new
section (the conditional, an opening fragment token directly after it,
the averaging-controls block, and then the original div), the opening
fragment right after the timeline conditional, the averaging block
followed by the original div, and a closing fragment token immediately
before the closing of the conditional — each as an exact substring. -/
theorem claim7_thm :
    isSubstrOf new_section (pipeline beforeFix) = true ∧
    isSubstrOf openFragAfterCond (pipeline beforeFix) = true ∧
    isSubstrOf avgThenDiv (pipeline beforeFix) = true ∧
    isSubstrOf closeFragBeforeParen (pipeline beforeFix) = true := by
  rw [pipeline_beforeFix]
  refine ⟨sub_afterFix_of_ns _ (isSubstrOf_self new_section), ?_, ?_,
    sub_afterFix_of_nc _ f_close_nc⟩
  · refine sub_afterFix_of_ns _ ?_
    rw [show new_section = ns_a ++ ns_b from rfl]
    exact isSubstrOf_append_right _ _ _ f_open_nsa
  · refine sub_afterFix_of_ns _ ?_
    rw [show new_section = ns_a ++ ns_b from rfl]
    exact isSubstrOf_append_left _ _ _ f_avg_nsb

/-- C8: each embedded script is a pure function of the bytes it reads, so
byte-for-byte equal inputs give byte-for-byte equal outcomes, and the
three-script pipeline is a deterministic function. -/
theorem claim8_thm (c₁ c₂ : List Char) (h : c₁ = c₂) :
    update_chart_controls c₁ = update_chart_controls c₂ ∧
    fix_chart_controls c₁ = fix_chart_controls c₂ ∧
    fix_chart_final c₁ = fix_chart_final c₂ ∧
    pipeline c₁ = pipeline c₂ := by
  subst h
  exact ⟨rfl, rfl, rfl, rfl⟩

/-- C8 witness: determinism at a concrete input. -/
theorem claim8_witness :
    update_chart_controls helloDoc = update_chart_controls helloDoc ∧
    fix_chart_controls helloDoc = fix_chart_controls helloDoc ∧
    fix_chart_final helloDoc = fix_chart_final helloDoc ∧
    pipeline helloDoc = pipeline helloDoc :=
  claim8_thm helloDoc helloDoc rfl

/-- C9: the out-of-bounds branches are reachable: a document whose target
line is the last line makes the structure check read past the end, and a
document whose fixup candidate sits two lines before the end makes the
loop read past the end; in both cases the embedded script returns the
IndexError outcome (none) instead of completing or reporting not-found. -/
theorem claim9_thm :
    (∃ ls t, findTarget tlMarker 0 ls = some t ∧ ls.get? (t + 1) = none ∧
      fix_chart_controls_lines ls = none) ∧
    (∃ ls t nxt, findTarget tlMarker 0 ls = some t ∧ ls.get? (t + 1) = some nxt ∧
      isSubstrOf divMarker nxt = true ∧ fix_chart_controls_lines ls = none) := by
  constructor
  · exact ⟨docC9a, 201, by decide, by decide, by decide⟩
  · exact ⟨docC9b, 201, divLine, by decide, by decide, by decide, by decide⟩

/-- C10: fix_chart_final.py never tests its patterns: every run exits 0,
writes, and prints only the success message; and when neither literal
block occurs in the input the written content equals the content read. -/
theorem claim10_thm :
    (∀ c, (fix_chart_final c).exitCode = 0 ∧ (fix_chart_final c).wrote = true ∧
      (fix_chart_final c).msgs = [Msg.fixedFragmentPlacement]) ∧
    (∀ c, isSubstrOf finalOld1 c = false → isSubstrOf finalOld2 c = false →
      (fix_chart_final c).file = c) := by
  constructor
  · intro c
    exact ⟨rfl, rfl, rfl⟩
  · intro c h1 h2
    show replaceAll finalOld2 finalNew2 (replaceAll finalOld1 finalNew1 c) = c
    rw [replaceAll_id_of_not_substr _ _ _ h1, replaceAll_id_of_not_substr _ _ _ h2]

/-- C10 witness: evaluated on a small document without the blocks. -/
theorem claim10_witness :
    (fix_chart_final helloDoc).exitCode = 0 ∧ (fix_chart_final helloDoc).file = helloDoc :=
  ⟨(claim10_thm.1 helloDoc).1, claim10_thm.2 helloDoc (by decide) (by decide)⟩
